import Mathlib

/-!
Shallow embedding of the SpotiBye audio playback controller
(AudioPlayerService, src/app/core/services/audio-player.service.ts as
reproduced in src/docs/3-services.md and src/unnamed/part_000), together
with proofs of the specified properties of its queue / shuffle / repeat
semantics.

Signals are modelled as plain record fields of a state value; every
imperative method becomes a pure state transformer.  The two effectful
collaborators of loadTrack (trackService.getAudioUrl and the native
audio.play call) are modelled by explicit outcome parameters, so that
a single call is a function of the state and of those outcomes.
-/

namespace SpotiBye

/-- Track metadata record (src/app/core/models/track.model.ts).  The
playback controller only ever inspects the id field (findIndex compares
t.id); the remaining metadata is opaque to it and is represented by a
single carrier field. -/
structure Track where
  id : Nat
  title : String
  deriving DecidableEq, Repr

/-- Player states of the controller: stopped / buffering / playing / paused
(src/unnamed/part_000, AudioPlayerService signals). -/
inductive PlayerState where
  | stopped
  | buffering
  | playing
  | paused
  deriving DecidableEq, Repr

/-- Repeat modes: off / all / one. -/
inductive RepeatMode where
  | off
  | all
  | one
  deriving DecidableEq, Repr

/-- Outcome of the awaited trackService.getAudioUrl call inside loadTrack:
a blob URL, a null result, or a thrown error. -/
inductive ResolveRes where
  | url (u : String)
  | nullRes
  | threw
  deriving DecidableEq, Repr

/-- Outcome of the awaited native audio.play call: resolves, or rejects. -/
inductive PlayRes where
  | ok
  | rejected
  deriving DecidableEq, Repr

/-- State of the AudioPlayerService: the signals _currentTrack,
_playerState, _volume, _muted, _progress, _duration, _queue, _queueIndex,
_shuffle, _repeatMode, plus the plain class fields originalQueue and
audioUrl.  The native audio element itself is created once in the
constructor and is never null afterwards, so it carries no state beyond
audioUrl here. -/
structure PlayerSt where
  currentTrack : Option Track
  playerState : PlayerState
  volume : ℚ
  muted : Bool
  progress : ℚ
  duration : ℚ
  queue : List Track
  queueIndex : Nat
  originalQueue : List Track
  shuffle : Bool
  repeatMode : RepeatMode
  audioUrl : Option String
  deriving DecidableEq, Repr

/-- Computed signal canPlayNext (src/unnamed/part_000 lines 222-227):
returns true when repeat mode is all or one, otherwise compares
queueIndex with queue.length - 1 (JS number arithmetic, hence the
comparison over Int). -/
def canPlayNext (s : PlayerSt) : Bool :=
  if s.repeatMode = RepeatMode.all ∨ s.repeatMode = RepeatMode.one then
    true
  else
    decide ((s.queueIndex : Int) < (s.queue.length : Int) - 1)

/-- Computed signal progressPercent (src/unnamed/part_000 lines 216-219):
dur > 0 ? (progress / dur) * 100 : 0. -/
def progressPercent (s : PlayerSt) : ℚ :=
  if s.duration > 0 then s.progress / s.duration * 100 else 0

/-- JS destructuring swap [l[i], l[j]] = [l[j], l[i]] on an array: when both
indices are in bounds the two entries are exchanged, otherwise (never hit by
the callers below) the array is unchanged. -/
def swapIdx {α : Type _} (l : List α) (i j : Nat) : List α :=
  match l[i]?, l[j]? with
  | some a, some b => (l.set i b).set j a
  | _, _ => l

/-- Fisher-Yates loop of shuffleArray (src/docs/3-services.md lines
447-454): for i from length-1 down to 1, swap entry i with entry
j = Math.floor(Math.random() * (i + 1)).  The random source is modelled by
a draw function; the draw for loop index i is reduced modulo (i + 1) so
that j ranges over [0, i] exactly as the JS expression does. -/
def fyLoop {α : Type _} (rand : Nat → Nat) : Nat → List α → List α
  | 0, l => l
  | i + 1, l => fyLoop rand i (swapIdx l (i + 1) (rand (i + 1) % (i + 2)))

/-- shuffleArray (src/docs/3-services.md lines 447-454): copies the input
array and runs the Fisher-Yates loop on the copy; the input array is not
modified (the copy is the list value the loop works on). -/
def shuffleArray {α : Type _} (rand : Nat → Nat) (array : List α) : List α :=
  fyLoop rand (array.length - 1) array

/-- Keep-current-track-at-position-0 step of toggleShuffle
(src/docs/3-services.md lines 430-438): find the first entry of the
shuffled array whose id equals the current track id (JS findIndex yields
-1 when absent, modelled by the none case of findIdx?), and when that
index is strictly positive, swap it with position 0. -/
def relocateCurrent (ct : Track) (shuffled : List Track) : List Track :=
  match shuffled.findIdx? (fun t => t.id == ct.id) with
  | some currentIndex =>
    if currentIndex > 0 then swapIdx shuffled 0 currentIndex else shuffled
  | none => shuffled

/-- toggleShuffle (src/docs/3-services.md lines 419-445).  The source
computes newShuffle = !shuffle and branches on it; here the branch is on
the old value directly, so the first branch is the disable path
(newShuffle false) and the second the enable path.  Enabling: snapshot the
queue into originalQueue, shuffle a copy, and if there is a current track,
relocate it to position 0 and set queueIndex to 0 (the index reset happens
whenever a current track exists, even if its id is absent from the
queue).  Disabling: set queue to originalQueue; neither queueIndex nor
originalQueue is touched. -/
def toggleShuffle (rand : Nat → Nat) (s : PlayerSt) : PlayerSt :=
  if s.shuffle then
    { s with shuffle := !s.shuffle, queue := s.originalQueue }
  else
    match s.currentTrack with
    | some ct =>
      { s with shuffle := !s.shuffle, originalQueue := s.queue,
               queue := relocateCurrent ct (shuffleArray rand s.queue),
               queueIndex := 0 }
    | none =>
      { s with shuffle := !s.shuffle, originalQueue := s.queue,
               queue := shuffleArray rand s.queue }

/-- loadTrack (src/docs/3-services.md lines 383-413).  The audio element is
created in the constructor and never null afterwards, so the early
`if (!this.audio) return false` guard cannot fire.  The previous blob URL
is revoked, the state moves to buffering with the new current track, then
the outcome of getAudioUrl is examined: a thrown error is caught and moves
the state to stopped; a null URL returns false with no further state
change (the state stays buffering); a URL is stored and, when autoPlay is
set, the native play call either fires the playing event (state playing)
or rejects, which is caught and moves the state to stopped. -/
def loadTrack (s : PlayerSt) (track : Track) (autoPlay : Bool)
    (res : ResolveRes) (pr : PlayRes) : Bool × PlayerSt :=
  let s1 := { s with audioUrl := none,
                     playerState := PlayerState.buffering,
                     currentTrack := some track }
  match res with
  | ResolveRes.threw => (false, { s1 with playerState := PlayerState.stopped })
  | ResolveRes.nullRes => (false, s1)
  | ResolveRes.url u =>
    let s2 := { s1 with audioUrl := some u }
    if autoPlay then
      match pr with
      | PlayRes.ok => (true, { s2 with playerState := PlayerState.playing })
      | PlayRes.rejected =>
        (false, { s2 with playerState := PlayerState.stopped })
    else
      (true, s2)

/-- Modelled from the spec: the bodies of next, previous, setQueue and the
end-of-track handler are not present in the repository source; this helper
captures their shared step, per spec section 4.1: move queueIndex to i,
then loadTrack the track there with autoPlay = true.  When no track exists
at i (unspecified by the spec) no load is performed. -/
def playAt (i : Nat) (res : ResolveRes) (pr : PlayRes) (s : PlayerSt) :
    PlayerSt :=
  match s.queue[i]? with
  | some t => (loadTrack { s with queueIndex := i } t true res pr).2
  | none => { s with queueIndex := i }

/-- Modelled from the spec: next is not present in the repository source.
Spec section 4.1: advance queueIndex with wraparound governed by
repeatMode, then loadTrack the new current track with autoPlay = true; the
wraparound rule is the end-of-track table (spec section 4.1): not at the
last index advances by one; at the last index repeat all wraps to 0,
repeat one replays the same index, repeat off transitions to stopped. -/
def next (res : ResolveRes) (pr : PlayRes) (s : PlayerSt) : PlayerSt :=
  if s.queue.length = 0 then s
  else if s.queueIndex + 1 < s.queue.length then
    playAt (s.queueIndex + 1) res pr s
  else
    match s.repeatMode with
    | RepeatMode.all => playAt 0 res pr s
    | RepeatMode.one => playAt s.queueIndex res pr s
    | RepeatMode.off => { s with playerState := PlayerState.stopped }

/-- Modelled from the spec: previous is not present in the repository
source.  Spec section 4.1: retreat queueIndex with wraparound governed by
repeatMode, then loadTrack the new current track with autoPlay = true;
from index 0 repeat all wraps to the last index (spec section 8), and the
other modes restart the track at index 0. -/
def previous (res : ResolveRes) (pr : PlayRes) (s : PlayerSt) : PlayerSt :=
  if s.queue.length = 0 then s
  else if 0 < s.queueIndex then
    playAt (s.queueIndex - 1) res pr s
  else
    match s.repeatMode with
    | RepeatMode.all => playAt (s.queue.length - 1) res pr s
    | _ => playAt 0 res pr s

/-- Modelled from the spec: setQueue is not present in the repository
source.  Spec section 4.1: replaces queue and queueIndex, loads the track
at startIndex with autoPlay = true. -/
def setQueue (tracks : List Track) (startIndex : Nat) (res : ResolveRes)
    (pr : PlayRes) (s : PlayerSt) : PlayerSt :=
  playAt startIndex res pr
    { s with queue := tracks, queueIndex := startIndex }

/-- Modelled from the spec: the body of the ended-event handler
(handleTrackEnded) is not present in the repository source.  Spec section
4.1 end-of-track handling: if repeatMode is one, reload and replay the
same track; else if queueIndex is not the last position, advance to next
and play; else if repeatMode is all, wrap to index 0 and play; else
transition to stopped. -/
def handleTrackEnded (res : ResolveRes) (pr : PlayRes) (s : PlayerSt) :
    PlayerSt :=
  match s.repeatMode with
  | RepeatMode.one => playAt s.queueIndex res pr s
  | _ =>
    if s.queueIndex + 1 < s.queue.length then
      playAt (s.queueIndex + 1) res pr s
    else if s.repeatMode = RepeatMode.all then
      playAt 0 res pr s
    else
      { s with playerState := PlayerState.stopped }

/-- Modelled from the spec: setVolume is not present in the repository
source.  Spec section 4.1: clamps to [0,1], assigns native volume;
unmutes if muted is set and v > 0. -/
def setVolume (v : ℚ) (s : PlayerSt) : PlayerSt :=
  { s with volume := max 0 (min 1 v),
           muted := if s.muted = true ∧ 0 < v then false else s.muted }

/-- Queue-index validity invariant from the spec data model (section 3):
whenever the queue is non-empty, queueIndex is a valid position. -/
def queueInvariant (s : PlayerSt) : Prop :=
  s.queue ≠ [] → s.queueIndex < s.queue.length

instance (s : PlayerSt) : Decidable (queueInvariant s) := by
  unfold queueInvariant
  infer_instance

/-- Navigation commands that the UI may issue while shuffle is active, each
carrying the outcomes of the load it triggers. -/
inductive NavOp where
  | nextOp (res : ResolveRes) (pr : PlayRes)
  | prevOp (res : ResolveRes) (pr : PlayRes)
  deriving DecidableEq, Repr

/-- Application of one navigation command. -/
def applyNav : NavOp → PlayerSt → PlayerSt
  | NavOp.nextOp res pr, s => next res pr s
  | NavOp.prevOp res pr, s => previous res pr s

/-- Application of a sequence of navigation commands, oldest first. -/
def applyNavs (ops : List NavOp) (s : PlayerSt) : PlayerSt :=
  ops.foldl (fun t op => applyNav op t) s

/-- Concrete track used in scenario checks. -/
def trackA : Track := ⟨1, "A"⟩

/-- Concrete track used in scenario checks. -/
def trackB : Track := ⟨2, "B"⟩

/-- Concrete track used in scenario checks. -/
def trackC : Track := ⟨3, "C"⟩

/-- Degenerate random source: every draw is 0 (a legal value of
Math.floor(Math.random() * (i + 1)) for every i). -/
def rand0 : Nat → Nat := fun _ => 0

/-- Controller state right after construction: empty queue, no track,
stopped, default volume 0.7. -/
def initState : PlayerSt :=
  { currentTrack := none, playerState := PlayerState.stopped,
    volume := 7/10, muted := false, progress := 0, duration := 0,
    queue := [], queueIndex := 0, originalQueue := [],
    shuffle := false, repeatMode := RepeatMode.off, audioUrl := none }

/-- State with queue [A,B,C], current track B at index 1, shuffle off:
the scenario of spec section 8. -/
def exEnable : PlayerSt :=
  { initState with currentTrack := some trackB,
                   playerState := PlayerState.playing,
                   progress := 30, duration := 60,
                   queue := [trackA, trackB, trackC], queueIndex := 1 }

/-- State with a current track whose id does not occur in the queue
(reachable by loadTrack of a track outside the queue). -/
def exNoMember : PlayerSt :=
  { initState with currentTrack := some trackB,
                   queue := [trackA], queueIndex := 0 }

/-- Shuffle-active state: shuffled queue [B,A] with current track B at
position 0 and snapshot [A,B]. -/
def exShuffled : PlayerSt :=
  { initState with currentTrack := some trackB,
                   queue := [trackB, trackA], queueIndex := 0,
                   originalQueue := [trackA, trackB], shuffle := true }

/-- State with repeat mode all and queueIndex at the last queue position. -/
def exRepeatAll : PlayerSt :=
  { exEnable with repeatMode := RepeatMode.all, queueIndex := 2,
                  currentTrack := some trackC }

/-- Muted state used to exercise the unmute-on-positive-volume rule. -/
def exMuted : PlayerSt := { exEnable with muted := true }

/-- Playing state holding a live blob URL. -/
def exPlaying : PlayerSt :=
  { exEnable with audioUrl := some "blob:prev" }

/-- Reachable shuffle-active state whose snapshot is shorter than the
live queue: setQueue [A] 0, enable shuffle, then setQueue [A,B,C] 2 while
shuffled. -/
def reachBadSnapshot : PlayerSt :=
  setQueue [trackA, trackB, trackC] 2 ResolveRes.nullRes PlayRes.ok
    (toggleShuffle rand0
      (setQueue [trackA] 0 ResolveRes.nullRes PlayRes.ok initState))

/-! Helper lemmas about the Fisher-Yates machinery. -/

/-- Writing entry j over position i and entry i over position j permutes
the list. -/
theorem set_set_perm {α : Type _} [DecidableEq α] {l : List α} {i j : Nat}
    {a b : α} (hi : l[i]? = some a) (hj : l[j]? = some b) :
    ((l.set i b).set j a).Perm l := by
  obtain ⟨hi1, hia⟩ := List.getElem?_eq_some.mp hi
  obtain ⟨hj1, hjb⟩ := List.getElem?_eq_some.mp hj
  have hj2 : j < (l.set i b).length := by simpa using hj1
  have hsetb : (l.set i b)[j] = b := by
    by_cases hij : i = j
    · subst hij
      exact List.getElem_set_self hj2
    · rw [List.getElem_set_ne hij]
      exact hjb
  have hamem : a ∈ l := hia ▸ l.getElem_mem hi1
  rw [List.perm_iff_count]
  intro x
  rw [List.count_set a x (l.set i b) j hj2, hsetb,
      List.count_set b x l i hi1, hia]
  have hA : (if (a == x) = true then 1 else 0) ≤ List.count x l := by
    split
    · rename_i hax
      have hax1 : a = x := by simpa using hax
      exact List.count_pos_iff.mpr (hax1 ▸ hamem)
    · exact Nat.zero_le _
  by_cases hax : (a == x) = true <;> by_cases hbx : (b == x) = true <;>
    simp only [hax, hbx, if_true, if_false] at hA ⊢ <;> omega

/-- swapIdx always permutes its argument. -/
theorem swapIdx_perm {α : Type _} (l : List α) (i j : Nat) :
    (swapIdx l i j).Perm l := by
  classical
  unfold swapIdx
  cases hi : l[i]? with
  | none =>
    cases hj : l[j]? with
    | none => exact List.Perm.refl l
    | some b => exact List.Perm.refl l
  | some a =>
    cases hj : l[j]? with
    | none => exact List.Perm.refl l
    | some b => exact set_set_perm hi hj

/-- The Fisher-Yates loop permutes its argument, whatever the draws. -/
theorem fyLoop_perm {α : Type _} (rand : Nat → Nat) :
    ∀ (i : Nat) (l : List α), (fyLoop rand i l).Perm l
  | 0, l => List.Perm.refl l
  | i + 1, l =>
    (fyLoop_perm rand i _).trans
      (swapIdx_perm l (i + 1) (rand (i + 1) % (i + 2)))

/-- shuffleArray returns a permutation of its input for every sequence of
random draws. -/
theorem shuffleArray_perm {α : Type _} (rand : Nat → Nat) (l : List α) :
    (shuffleArray rand l).Perm l :=
  fyLoop_perm rand (l.length - 1) l

/-- relocateCurrent permutes its argument. -/
theorem relocateCurrent_perm (ct : Track) (l : List Track) :
    (relocateCurrent ct l).Perm l := by
  unfold relocateCurrent
  cases hk : l.findIdx? (fun t => t.id == ct.id) with
  | none => exact List.Perm.refl l
  | some k =>
    by_cases hkpos : k > 0
    · simp only [hkpos, if_true]
      exact swapIdx_perm l 0 k
    · simp only [hkpos, if_false]
      exact List.Perm.refl l

/-- When the current track occurs in the list and the listed track ids are
distinct, relocateCurrent really places the current track itself at
position 0. -/
theorem relocateCurrent_head (ct : Track) (l : List Track)
    (hmem : ct ∈ l) (hnodup : (l.map Track.id).Nodup) :
    (relocateCurrent ct l)[0]? = some ct := by
  obtain ⟨k, hk⟩ : ∃ k, l.findIdx? (fun t => t.id == ct.id) = some k := by
    cases hfi : l.findIdx? (fun t => t.id == ct.id) with
    | some k => exact ⟨k, rfl⟩
    | none =>
      have hall := List.findIdx?_eq_none_iff.mp hfi ct hmem
      simp at hall
  cases hlk : l[k]? with
  | none =>
    have hmatch := List.findIdx?_of_eq_some hk
    rw [hlk] at hmatch
    exact absurd hmatch (by simp)
  | some t =>
    have hpt : (t.id == ct.id) = true := by
      have hmatch := List.findIdx?_of_eq_some hk
      rw [hlk] at hmatch
      exact hmatch
    have htid : t.id = ct.id := by simpa using hpt
    have htmem : t ∈ l := List.mem_iff_getElem?.mpr ⟨k, hlk⟩
    have hteq : t = ct := List.inj_on_of_nodup_map hnodup htmem hmem htid
    subst hteq
    obtain ⟨hk1, _⟩ := List.getElem?_eq_some.mp hlk
    have h0l : 0 < l.length := Nat.lt_of_le_of_lt (Nat.zero_le k) hk1
    unfold relocateCurrent
    rw [hk]
    by_cases hkpos : k > 0
    · simp only [hkpos, if_true]
      unfold swapIdx
      rw [List.getElem?_eq_getElem h0l, hlk]
      rw [List.getElem?_set_ne (by omega : k ≠ 0)]
      exact List.getElem?_set_eq_of_lt _ h0l
    · simp only [hkpos, if_false]
      have hk0 : k = 0 := by omega
      subst hk0
      exact hlk

/-! Helper lemmas about which state fields each operation can touch. -/

/-- loadTrack never touches the queue, the queue index, the shuffle flag
or the snapshot. -/
theorem loadTrack_effects (s : PlayerSt) (t : Track) (b : Bool)
    (res : ResolveRes) (pr : PlayRes) :
    ((loadTrack s t b res pr).2).queue = s.queue ∧
    ((loadTrack s t b res pr).2).queueIndex = s.queueIndex ∧
    ((loadTrack s t b res pr).2).shuffle = s.shuffle ∧
    ((loadTrack s t b res pr).2).originalQueue = s.originalQueue := by
  cases res <;> cases pr <;> cases b <;> simp [loadTrack]

/-- playAt keeps the queue, the shuffle flag and the snapshot, and moves
the queue index to its argument. -/
theorem playAt_effects (i : Nat) (res : ResolveRes) (pr : PlayRes)
    (s : PlayerSt) :
    (playAt i res pr s).queue = s.queue ∧
    (playAt i res pr s).queueIndex = i ∧
    (playAt i res pr s).shuffle = s.shuffle ∧
    (playAt i res pr s).originalQueue = s.originalQueue := by
  unfold playAt
  cases hq : s.queue[i]? with
  | none => simp
  | some t =>
    simpa using loadTrack_effects { s with queueIndex := i } t true res pr

/-- next keeps the queue, the shuffle flag and the snapshot. -/
theorem next_effects (res : ResolveRes) (pr : PlayRes) (s : PlayerSt) :
    (next res pr s).queue = s.queue ∧
    (next res pr s).shuffle = s.shuffle ∧
    (next res pr s).originalQueue = s.originalQueue := by
  unfold next
  by_cases h0 : s.queue.length = 0
  · simp [h0]
  · simp only [h0, if_false]
    by_cases h1 : s.queueIndex + 1 < s.queue.length
    · have he := playAt_effects (s.queueIndex + 1) res pr s
      simp [h1, he.1, he.2.2.1, he.2.2.2]
    · simp only [h1, if_false]
      cases hm : s.repeatMode with
      | all =>
        have he := playAt_effects 0 res pr s
        simp [he.1, he.2.2.1, he.2.2.2]
      | one =>
        have he := playAt_effects s.queueIndex res pr s
        simp [he.1, he.2.2.1, he.2.2.2]
      | off => simp

/-- previous keeps the queue, the shuffle flag and the snapshot. -/
theorem previous_effects (res : ResolveRes) (pr : PlayRes) (s : PlayerSt) :
    (previous res pr s).queue = s.queue ∧
    (previous res pr s).shuffle = s.shuffle ∧
    (previous res pr s).originalQueue = s.originalQueue := by
  unfold previous
  by_cases h0 : s.queue.length = 0
  · simp [h0]
  · simp only [h0, if_false]
    by_cases h1 : 0 < s.queueIndex
    · have he := playAt_effects (s.queueIndex - 1) res pr s
      simp [h1, he.1, he.2.2.1, he.2.2.2]
    · simp only [h1, if_false]
      cases hm : s.repeatMode with
      | all =>
        have he := playAt_effects (s.queue.length - 1) res pr s
        simp [he.1, he.2.2.1, he.2.2.2]
      | one =>
        have he := playAt_effects 0 res pr s
        simp [he.1, he.2.2.1, he.2.2.2]
      | off =>
        have he := playAt_effects 0 res pr s
        simp [he.1, he.2.2.1, he.2.2.2]

/-- Enabling shuffle permutes the queue, snapshots the previous queue,
raises the flag, and the queue index is reset to 0 or left alone
(depending on whether a current track exists). -/
theorem toggleShuffle_enable_effects (rand : Nat → Nat) (s : PlayerSt)
    (h : s.shuffle = false) :
    ((toggleShuffle rand s).queue).Perm s.queue ∧
    (toggleShuffle rand s).originalQueue = s.queue ∧
    (toggleShuffle rand s).shuffle = true ∧
    ((toggleShuffle rand s).queueIndex = 0 ∨
      (toggleShuffle rand s).queueIndex = s.queueIndex) := by
  unfold toggleShuffle
  rw [h]
  simp only [Bool.false_eq_true, if_false, Bool.not_false]
  cases hct : s.currentTrack with
  | none => exact ⟨shuffleArray_perm rand s.queue, rfl, rfl, Or.inr rfl⟩
  | some ct =>
    exact ⟨(relocateCurrent_perm ct _).trans (shuffleArray_perm rand s.queue),
           rfl, rfl, Or.inl rfl⟩

/-- Disabling shuffle restores the snapshot as the queue, lowers the flag,
and leaves the queue index, the snapshot and the current track alone. -/
theorem toggleShuffle_disable_effects (rand : Nat → Nat) (s : PlayerSt)
    (h : s.shuffle = true) :
    (toggleShuffle rand s).queue = s.originalQueue ∧
    (toggleShuffle rand s).queueIndex = s.queueIndex ∧
    (toggleShuffle rand s).originalQueue = s.originalQueue ∧
    (toggleShuffle rand s).shuffle = false ∧
    (toggleShuffle rand s).currentTrack = s.currentTrack := by
  unfold toggleShuffle
  rw [h]
  simp

/-- Navigation commands keep the shuffle flag and the snapshot. -/
theorem applyNav_fields (op : NavOp) (t : PlayerSt) :
    (applyNav op t).shuffle = t.shuffle ∧
    (applyNav op t).originalQueue = t.originalQueue := by
  cases op with
  | nextOp res pr => exact ⟨(next_effects res pr t).2.1, (next_effects res pr t).2.2⟩
  | prevOp res pr =>
    exact ⟨(previous_effects res pr t).2.1, (previous_effects res pr t).2.2⟩

/-- Sequences of navigation commands keep the shuffle flag and the
snapshot. -/
theorem applyNavs_fields :
    ∀ (ops : List NavOp) (t : PlayerSt),
      (applyNavs ops t).shuffle = t.shuffle ∧
      (applyNavs ops t).originalQueue = t.originalQueue
  | [], _ => ⟨rfl, rfl⟩
  | op :: ops, t =>
    ⟨((applyNavs_fields ops (applyNav op t)).1).trans (applyNav_fields op t).1,
     ((applyNavs_fields ops (applyNav op t)).2).trans (applyNav_fields op t).2⟩

/-! Helper lemmas: preservation of the queue-index invariant. -/

/-- playAt establishes the invariant whenever the target index is a valid
position of the (unchanged) queue. -/
theorem queueInvariant_playAt {i : Nat} (res : ResolveRes) (pr : PlayRes)
    (s : PlayerSt) (h : s.queue ≠ [] → i < s.queue.length) :
    queueInvariant (playAt i res pr s) := by
  have he := playAt_effects i res pr s
  unfold queueInvariant
  rw [he.1, he.2.1]
  exact h

/-- next preserves the invariant. -/
theorem queueInvariant_next (res : ResolveRes) (pr : PlayRes)
    (s : PlayerSt) (h : queueInvariant s) :
    queueInvariant (next res pr s) := by
  unfold next
  by_cases h0 : s.queue.length = 0
  · simp only [h0, if_true]
    exact h
  · simp only [h0, if_false]
    by_cases h1 : s.queueIndex + 1 < s.queue.length
    · simp only [h1, if_true]
      exact queueInvariant_playAt res pr s (fun _ => h1)
    · simp only [h1, if_false]
      cases hm : s.repeatMode with
      | all =>
        exact queueInvariant_playAt res pr s
          (fun _ => Nat.pos_of_ne_zero h0)
      | one => exact queueInvariant_playAt res pr s h
      | off =>
        intro hne
        exact h hne

/-- previous preserves the invariant. -/
theorem queueInvariant_previous (res : ResolveRes) (pr : PlayRes)
    (s : PlayerSt) (h : queueInvariant s) :
    queueInvariant (previous res pr s) := by
  unfold previous
  by_cases h0 : s.queue.length = 0
  · simp only [h0, if_true]
    exact h
  · simp only [h0, if_false]
    by_cases h1 : 0 < s.queueIndex
    · simp only [h1, if_true]
      refine queueInvariant_playAt res pr s (fun hne => ?_)
      have := h hne
      omega
    · simp only [h1, if_false]
      cases hm : s.repeatMode with
      | all =>
        refine queueInvariant_playAt res pr s (fun _ => ?_)
        omega
      | one =>
        exact queueInvariant_playAt res pr s
          (fun _ => Nat.pos_of_ne_zero h0)
      | off =>
        exact queueInvariant_playAt res pr s
          (fun _ => Nat.pos_of_ne_zero h0)

/-- The end-of-track handler preserves the invariant. -/
theorem queueInvariant_ended (res : ResolveRes) (pr : PlayRes)
    (s : PlayerSt) (h : queueInvariant s) :
    queueInvariant (handleTrackEnded res pr s) := by
  unfold handleTrackEnded
  cases hm : s.repeatMode with
  | one => exact queueInvariant_playAt res pr s h
  | all =>
    by_cases h1 : s.queueIndex + 1 < s.queue.length
    · simp only [h1, if_true]
      exact queueInvariant_playAt res pr s (fun _ => h1)
    · simp only [h1, if_false, if_pos rfl]
      refine queueInvariant_playAt res pr s (fun hne => ?_)
      have hlen : s.queue.length ≠ 0 := by
        intro hz
        exact hne (List.length_eq_zero.mp hz)
      omega
  | off =>
    by_cases h1 : s.queueIndex + 1 < s.queue.length
    · simp only [h1, if_true]
      exact queueInvariant_playAt res pr s (fun _ => h1)
    · have hoff : (RepeatMode.off = RepeatMode.all) = False := by simp
      simp only [h1, if_false, hoff]
      intro hne
      exact h hne

/-- setQueue establishes the invariant for a valid start index. -/
theorem queueInvariant_setQueue (tracks : List Track) (i : Nat)
    (res : ResolveRes) (pr : PlayRes) (s : PlayerSt)
    (h : i < tracks.length) :
    queueInvariant (setQueue tracks i res pr s) :=
  queueInvariant_playAt res pr _ (fun _ => h)

/-- Enabling shuffle preserves the invariant. -/
theorem queueInvariant_toggleOn (rand : Nat → Nat) (s : PlayerSt)
    (hsh : s.shuffle = false) (h : queueInvariant s) :
    queueInvariant (toggleShuffle rand s) := by
  obtain ⟨hperm, _, _, hidx⟩ := toggleShuffle_enable_effects rand s hsh
  intro hne
  have hlen := hperm.length_eq
  have hne0 : s.queue ≠ [] := by
    intro hq
    rw [hq] at hperm
    exact hne (List.Perm.eq_nil hperm)
  rcases hidx with h0 | hsame
  · rw [h0, hlen]
    exact List.length_pos.mpr hne0
  · rw [hsame, hlen]
    exact h hne0

/-- Disabling shuffle preserves the invariant provided the queue index is
still a valid position of the snapshot being restored. -/
theorem queueInvariant_toggleOff (rand : Nat → Nat) (s : PlayerSt)
    (hsh : s.shuffle = true) (h : s.queueIndex < s.originalQueue.length) :
    queueInvariant (toggleShuffle rand s) := by
  obtain ⟨hq, hidx, _, _, _⟩ := toggleShuffle_disable_effects rand s hsh
  intro _
  rw [hq, hidx]
  exact h

/-! Claims. -/

/-- Claim C1: the derived value canPlayNext is true exactly when
repeatMode is all or one, or queueIndex < queue.length - 1, for every
state of the playback controller. -/
theorem canPlayNext_spec (s : PlayerSt) :
    canPlayNext s = true ↔
      (s.repeatMode = RepeatMode.all ∨ s.repeatMode = RepeatMode.one ∨
        (s.queueIndex : Int) < (s.queue.length : Int) - 1) := by
  unfold canPlayNext
  by_cases h : s.repeatMode = RepeatMode.all ∨ s.repeatMode = RepeatMode.one
  · rw [if_pos h]
    constructor
    · intro _
      rcases h with h | h
      · exact Or.inl h
      · exact Or.inr (Or.inl h)
    · intro _
      rfl
  · rw [if_neg h]
    push_neg at h
    simp [h.1, h.2, decide_eq_true_eq]

/-- Claim C2, counterexample to the unconditional statement: in a state
with non-empty queue [A] and non-null current track B whose id does not
occur in the queue (reachable, since loadTrack may be called with a track
outside the queue), enabling shuffle does not put the current track at
position 0. -/
theorem toggleShuffle_enable_nonmember_cex :
    exNoMember.shuffle = false ∧
    exNoMember.currentTrack = some trackB ∧
    exNoMember.queue ≠ [] ∧
    (toggleShuffle rand0 exNoMember).queue = [trackA] ∧
    (toggleShuffle rand0 exNoMember).queue[0]? ≠ some trackB := by
  decide

/-- Claim C2 (amended): for every non-empty queue whose current track
occurs in it (track ids in the queue being unique, per the data-model
invariant), toggleShuffle with shuffle off snapshots the queue into
originalQueue, replaces queue with a permutation of it whose position 0
holds the current track, and sets queueIndex to 0. -/
theorem toggleShuffle_enable_correct (rand : Nat → Nat) (s : PlayerSt)
    (ct : Track) (hsh : s.shuffle = false) (hct : s.currentTrack = some ct)
    (hmem : ct ∈ s.queue) (hnodup : (s.queue.map Track.id).Nodup) :
    ((toggleShuffle rand s).queue).Perm s.queue ∧
    (toggleShuffle rand s).queue[0]? = some ct ∧
    (toggleShuffle rand s).queueIndex = 0 ∧
    (toggleShuffle rand s).originalQueue = s.queue ∧
    (toggleShuffle rand s).shuffle = true := by
  have hperm := shuffleArray_perm rand s.queue
  have hmem2 : ct ∈ shuffleArray rand s.queue := hperm.mem_iff.mpr hmem
  have hnodup2 : ((shuffleArray rand s.queue).map Track.id).Nodup :=
    ((hperm.map Track.id).nodup_iff).mpr hnodup
  have hhead := relocateCurrent_head ct _ hmem2 hnodup2
  unfold toggleShuffle
  rw [hsh, hct]
  simp only [Bool.false_eq_true, if_false, Bool.not_false]
  exact ⟨(relocateCurrent_perm ct _).trans hperm, hhead, trivial, trivial,
         trivial⟩

/-- Claim C2, witness: the scenario of spec section 8, queue [A,B,C] with
current track B. -/
theorem toggleShuffle_enable_correct_witness :
    ((toggleShuffle rand0 exEnable).queue).Perm exEnable.queue ∧
    (toggleShuffle rand0 exEnable).queue[0]? = some trackB ∧
    (toggleShuffle rand0 exEnable).queueIndex = 0 ∧
    (toggleShuffle rand0 exEnable).originalQueue = exEnable.queue ∧
    (toggleShuffle rand0 exEnable).shuffle = true :=
  toggleShuffle_enable_correct rand0 exEnable trackB rfl rfl
    (by decide) (by decide)

/-- Claim C3, counterexample: disabling shuffle restores the queue but does
not recompute queueIndex (the current track B sits at position 1 of the
restored queue while queueIndex stays 0) and does not discard the
snapshot. -/
theorem toggleShuffle_disable_index_cex :
    exShuffled.shuffle = true ∧
    (toggleShuffle rand0 exShuffled).currentTrack = some trackB ∧
    (toggleShuffle rand0 exShuffled).queue = [trackA, trackB] ∧
    List.findIdx? (fun t => t.id == trackB.id) [trackA, trackB] = some 1 ∧
    (toggleShuffle rand0 exShuffled).queueIndex = 0 ∧
    (toggleShuffle rand0 exShuffled).queueIndex ≠ 1 ∧
    (toggleShuffle rand0 exShuffled).originalQueue = [trackA, trackB] := by
  decide

/-- Claim C3 (amended): for every state with shuffle active, toggleShuffle
restores queue from originalQueue and lowers the flag, but leaves
queueIndex and the snapshot unchanged (it neither recomputes the index to
the position of the current track nor discards originalQueue). -/
theorem toggleShuffle_disable_spec (rand : Nat → Nat) (s : PlayerSt)
    (h : s.shuffle = true) :
    (toggleShuffle rand s).queue = s.originalQueue ∧
    (toggleShuffle rand s).shuffle = false ∧
    (toggleShuffle rand s).queueIndex = s.queueIndex ∧
    (toggleShuffle rand s).originalQueue = s.originalQueue :=
  ⟨(toggleShuffle_disable_effects rand s h).1,
   (toggleShuffle_disable_effects rand s h).2.2.2.1,
   (toggleShuffle_disable_effects rand s h).2.1,
   (toggleShuffle_disable_effects rand s h).2.2.1⟩

/-- Claim C3, witness at the concrete shuffled state. -/
theorem toggleShuffle_disable_spec_witness :
    (toggleShuffle rand0 exShuffled).queue = exShuffled.originalQueue ∧
    (toggleShuffle rand0 exShuffled).shuffle = false ∧
    (toggleShuffle rand0 exShuffled).queueIndex = exShuffled.queueIndex ∧
    (toggleShuffle rand0 exShuffled).originalQueue =
      exShuffled.originalQueue :=
  toggleShuffle_disable_spec rand0 exShuffled rfl

/-- Claim C4: enabling shuffle and later disabling it restores queue to
exactly the order it had before the enable, for every queue, every random
draw sequence, and regardless of any next/previous calls made while
shuffled. -/
theorem shuffle_roundtrip (rand1 rand2 : Nat → Nat) (ops : List NavOp)
    (s : PlayerSt) (h : s.shuffle = false) :
    (toggleShuffle rand2 (applyNavs ops (toggleShuffle rand1 s))).queue
      = s.queue := by
  have he := toggleShuffle_enable_effects rand1 s h
  have hn := applyNavs_fields ops (toggleShuffle rand1 s)
  have hsh2 : (applyNavs ops (toggleShuffle rand1 s)).shuffle = true :=
    hn.1.trans he.2.2.1
  have horig :
      (applyNavs ops (toggleShuffle rand1 s)).originalQueue = s.queue :=
    hn.2.trans he.2.1
  exact ((toggleShuffle_disable_effects rand2 _ hsh2).1).trans horig

/-- Claim C4, witness: a round trip around one next and one previous call
with failing and succeeding loads. -/
theorem shuffle_roundtrip_witness :
    (toggleShuffle rand0 (applyNavs
        [NavOp.nextOp ResolveRes.nullRes PlayRes.ok,
         NavOp.prevOp ResolveRes.threw PlayRes.rejected]
        (toggleShuffle rand0 exEnable))).queue = exEnable.queue :=
  shuffle_roundtrip rand0 rand0
    [NavOp.nextOp ResolveRes.nullRes PlayRes.ok,
     NavOp.prevOp ResolveRes.threw PlayRes.rejected]
    exEnable rfl

/-- Claim C5: evaluation of loadTrack at the failing input (getAudioUrl
resolves to null): the call returns false and retains no blob URL, as
claimed, but playerState ends as buffering, not stopped — the early
return skips the stopped transition that the catch branch performs. -/
theorem loadTrack_nullUrl_divergence :
    (loadTrack exPlaying trackA true ResolveRes.nullRes PlayRes.ok).1
      = false ∧
    (loadTrack exPlaying trackA true ResolveRes.nullRes PlayRes.ok).2.audioUrl
      = none ∧
    (loadTrack exPlaying trackA true ResolveRes.nullRes PlayRes.ok).2.playerState
      = PlayerState.buffering ∧
    (loadTrack exPlaying trackA true ResolveRes.nullRes PlayRes.ok).2.playerState
      ≠ PlayerState.stopped := by
  decide

/-- Claim C6: for every controller state (duration is non-negative, being
read off the native audio element), progressPercent is 0 when duration is
0 and progress / duration * 100 otherwise. -/
theorem progressPercent_spec (s : PlayerSt) (h : 0 ≤ s.duration) :
    (s.duration = 0 → progressPercent s = 0) ∧
    (s.duration ≠ 0 →
      progressPercent s = s.progress / s.duration * 100) := by
  constructor
  · intro h0
    simp [progressPercent, h0]
  · intro h0
    have hpos : 0 < s.duration := lt_of_le_of_ne h (Ne.symm h0)
    simp [progressPercent, hpos]

/-- Claim C6, witness at a state with duration 60 and progress 30. -/
theorem progressPercent_spec_witness :
    progressPercent exEnable = exEnable.progress / exEnable.duration * 100 :=
  (progressPercent_spec exEnable (by decide)).2 (by decide)

/-- Claim C7, counterexample to preservation by toggleShuffle: a reachable
shuffle-active state (setQueue [A] 0; enable shuffle; setQueue [A,B,C] 2)
satisfies the invariant, yet disabling shuffle restores the stale
snapshot [A] while keeping queueIndex 2, breaking it. -/
theorem queueInvariant_toggleOff_cex :
    queueInvariant reachBadSnapshot ∧
    reachBadSnapshot.shuffle = true ∧
    ¬ queueInvariant (toggleShuffle rand0 reachBadSnapshot) := by
  decide

/-- Claim C7 (amended): whenever queue is non-empty, queueIndex stays in
[0, queue.length); this is established by setQueue for a valid start
index and preserved by next, previous, loadTrack, the end-of-track handler
and shuffle enabling; shuffle disabling preserves it provided queueIndex
is still a valid position of the snapshot being restored (the code does
not recompute the index on restore). -/
theorem queueInvariant_preservation :
    (∀ (s : PlayerSt) (tracks : List Track) (i : Nat) (res : ResolveRes)
        (pr : PlayRes), i < tracks.length →
        queueInvariant (setQueue tracks i res pr s)) ∧
    (∀ (s : PlayerSt) (res : ResolveRes) (pr : PlayRes),
        queueInvariant s → queueInvariant (next res pr s)) ∧
    (∀ (s : PlayerSt) (res : ResolveRes) (pr : PlayRes),
        queueInvariant s → queueInvariant (previous res pr s)) ∧
    (∀ (s : PlayerSt) (t : Track) (b : Bool) (res : ResolveRes)
        (pr : PlayRes), queueInvariant s →
        queueInvariant (loadTrack s t b res pr).2) ∧
    (∀ (s : PlayerSt) (res : ResolveRes) (pr : PlayRes),
        queueInvariant s → queueInvariant (handleTrackEnded res pr s)) ∧
    (∀ (rand : Nat → Nat) (s : PlayerSt), s.shuffle = false →
        queueInvariant s → queueInvariant (toggleShuffle rand s)) ∧
    (∀ (rand : Nat → Nat) (s : PlayerSt), s.shuffle = true →
        s.queueIndex < s.originalQueue.length →
        queueInvariant (toggleShuffle rand s)) := by
  refine ⟨?_, ?_, ?_, ?_, ?_, ?_, ?_⟩
  · intro s tracks i res pr h
    exact queueInvariant_setQueue tracks i res pr s h
  · intro s res pr h
    exact queueInvariant_next res pr s h
  · intro s res pr h
    exact queueInvariant_previous res pr s h
  · intro s t b res pr h
    unfold queueInvariant
    rw [(loadTrack_effects s t b res pr).1,
        (loadTrack_effects s t b res pr).2.1]
    exact h
  · intro s res pr h
    exact queueInvariant_ended res pr s h
  · intro rand s hsh h
    exact queueInvariant_toggleOn rand s hsh h
  · intro rand s hsh h
    exact queueInvariant_toggleOff rand s hsh h

/-- Claim C7, witness: next preserves the invariant at the concrete
scenario state. -/
theorem queueInvariant_preservation_witness :
    queueInvariant (next ResolveRes.nullRes PlayRes.ok exEnable) :=
  queueInvariant_preservation.2.1 exEnable ResolveRes.nullRes PlayRes.ok
    (by decide)

/-- Claim C8: after setVolume v the stored volume is clamp(v, 0, 1): it
lies in [0,1], equals v whenever v already lies in [0,1], and saturates at
the violated bound otherwise; and a muted controller is unmuted whenever
v > 0. -/
theorem setVolume_spec (v : ℚ) (s : PlayerSt) :
    0 ≤ (setVolume v s).volume ∧
    (setVolume v s).volume ≤ 1 ∧
    (0 ≤ v → v ≤ 1 → (setVolume v s).volume = v) ∧
    (v < 0 → (setVolume v s).volume = 0) ∧
    (1 < v → (setVolume v s).volume = 1) ∧
    (s.muted = true → 0 < v → (setVolume v s).muted = false) := by
  have hval : (setVolume v s).volume = max 0 (min 1 v) := rfl
  refine ⟨?_, ?_, ?_, ?_, ?_, ?_⟩
  · rw [hval]
    exact le_max_left 0 _
  · rw [hval]
    exact max_le zero_le_one (min_le_left 1 v)
  · intro h0 h1
    rw [hval, min_eq_right h1, max_eq_right h0]
  · intro hneg
    rw [hval, min_eq_right (le_of_lt (lt_of_lt_of_le hneg zero_le_one)),
        max_eq_left (le_of_lt hneg)]
  · intro hgt
    rw [hval, min_eq_left (le_of_lt hgt), max_eq_right zero_le_one]
  · intro hm hv
    simp [setVolume, hm, hv]

/-- Claim C8, witness: setVolume 2 on a muted state stores 1 and
unmutes. -/
theorem setVolume_spec_witness :
    (setVolume 2 exMuted).volume = 1 ∧ (setVolume 2 exMuted).muted = false :=
  ⟨(setVolume_spec 2 exMuted).2.2.2.2.1 (by decide),
   (setVolume_spec 2 exMuted).2.2.2.2.2 rfl (by decide)⟩

/-- Claim C9: with repeatMode all and a non-empty queue, next from the
last index wraps queueIndex to 0, and previous from index 0 wraps it to
queue.length - 1. -/
theorem repeatAll_wraparound (s : PlayerSt) (res : ResolveRes)
    (pr : PlayRes) (hmode : s.repeatMode = RepeatMode.all)
    (hne : s.queue ≠ []) :
    (s.queueIndex = s.queue.length - 1 → (next res pr s).queueIndex = 0) ∧
    (s.queueIndex = 0 →
      (previous res pr s).queueIndex = s.queue.length - 1) := by
  have hlen : ¬ s.queue.length = 0 := by
    intro hz
    exact hne (List.length_eq_zero.mp hz)
  constructor
  · intro hidx
    unfold next
    rw [if_neg hlen]
    have hnotlt : ¬ (s.queueIndex + 1 < s.queue.length) := by omega
    rw [if_neg hnotlt, hmode]
    exact (playAt_effects 0 res pr s).2.1
  · intro hidx
    unfold previous
    rw [if_neg hlen]
    have hnotpos : ¬ (0 < s.queueIndex) := by omega
    rw [if_neg hnotpos, hmode]
    exact (playAt_effects (s.queue.length - 1) res pr s).2.1

/-- Claim C9, witness: queue [A,B,C], repeat all, next from index 2. -/
theorem repeatAll_wraparound_witness :
    (next ResolveRes.nullRes PlayRes.ok exRepeatAll).queueIndex = 0 :=
  (repeatAll_wraparound exRepeatAll ResolveRes.nullRes PlayRes.ok rfl
    (by decide)).1 rfl

/-- Claim C10: shuffleArray returns a permutation of its input (same
elements with the same multiplicities) for every input and every sequence
of random draws; the input list itself is never modified, the loop working
on the spread-copy. -/
theorem shuffleArray_is_permutation {α : Type _} (rand : Nat → Nat)
    (array : List α) : (shuffleArray rand array).Perm array :=
  shuffleArray_perm rand array

end SpotiBye
